import Mathlib

/-!
# Verification of the `cicd-thing` deployment execution engine

A shallow embedding of the Go deployment executor
(`internal/deployment/executor.go`, `internal/deployment/types.go`,
`internal/mapping/mapper.go`) together with proofs about it.

Time is modelled as a `Nat` clock; Go `time.Duration` values become `Nat`
durations and a `context.WithTimeout` deadline becomes an absolute `Nat`
deadline.  Subprocess execution (`exec.CommandContext` + `CombinedOutput`)
is modelled by an oracle (`Env`) describing, for each command string, how
the subprocess would behave: whether it fails to start, what combined
output it writes, its exit status, and how long it runs.
-/

namespace CicdThing

instance {ε α : Type} [DecidableEq ε] [DecidableEq α] : DecidableEq (Except ε α) := fun a b =>
  match a, b with
  | .ok x, .ok y => if h : x = y then .isTrue (by rw [h]) else .isFalse (by simp [h])
  | .error x, .error y => if h : x = y then .isTrue (by rw [h]) else .isFalse (by simp [h])
  | .ok _, .error _ => .isFalse (by simp)
  | .error _, .ok _ => .isFalse (by simp)

/-- Deployment status, from `internal/deployment/types.go` (`Status` constants
`STARTED`, `SUCCESS`, `FAILED`, `TIMEOUT`, `ROLLBACK`, `CANCELLED`). -/
inductive Status where
  | started
  | success
  | failed
  | timeout
  | rollback
  | cancelled
deriving DecidableEq, Repr

/-- A deployment request, from `internal/deployment/types.go` (`Request`).
`timestamp` is a `Nat` clock value. -/
structure Request where
  id : String
  repository : String
  branch : String := ""
  commit : String := ""
  message : String := ""
  author : String := ""
  timestamp : Nat := 0
  localPath : String := ""
  commands : List String := []
  manual : Bool := false
deriving DecidableEq, Repr

/-- The result of a deployment, from `internal/deployment/types.go` (`Result`).
Times and durations are `Nat`; `exitCode` is the Go `int` exit code. -/
structure Result where
  request : Request
  status : Status
  startTime : Nat
  endTime : Nat := 0
  duration : Nat := 0
  output : String := ""
  error : String := ""
  exitCode : Int := 0
deriving DecidableEq, Repr

/-- A deployment lock for an application, from `internal/deployment/types.go`
(`Lock`): application name, acquisition time, owning request id. -/
structure Lock where
  appName : String
  startTime : Nat
  requestID : String
deriving DecidableEq, Repr

/-- The configuration fields the executor reads (`config.Config`): the Go maps
`Commands` and `RollbackCommands` (app name to command string) are modelled as
`String → Option String` lookups, `Timeout` as a `Nat` duration. -/
structure Config where
  timeout : Nat
  dryRun : Bool
  commands : String → Option String
  rollbackCommands : String → Option String
  defaultCommands : String
  concurrencyLimit : Nat

/-! ## Go string primitives

The Lean core `String.splitOn`/`String.replace` are defined by well-founded
recursion over byte positions and do not reduce in the kernel, so the Go
`strings` functions the executor uses are modelled by executable functions over
character lists with the same semantics. -/

/-- Go `unicode.IsSpace`: the Unicode White_Space property. -/
def isGoSpace (c : Char) : Bool :=
  c = '\t' || c = '\n' || c = '\x0b' || c = '\x0c' || c = '\r' || c = ' ' ||
  c = '\u0085' || c = '\u00a0' || c = '\u1680' ||
  ('\u2000' ≤ c && c ≤ '\u200a') ||
  c = '\u2028' || c = '\u2029' || c = '\u202f' || c = '\u205f' || c = '\u3000'

/-- Go `strings.TrimSpace`: drop leading and trailing White_Space characters. -/
def goTrim (s : String) : String :=
  ⟨(((s.data.dropWhile isGoSpace).reverse.dropWhile isGoSpace).reverse)⟩

/-- Go `strings.Split` on character lists, with enough `fuel` (any value at
least the length of the list): split around each leftmost non-overlapping
occurrence of the non-empty separator `sep`. -/
def goSplitList (sep : List Char) : Nat → List Char → List (List Char)
  | _, [] => [[]]
  | 0, s => [s]
  | fuel + 1, c :: rest =>
    if sep.isPrefixOf (c :: rest) && !sep.isEmpty then
      [] :: goSplitList sep fuel ((c :: rest).drop sep.length)
    else
      match goSplitList sep fuel rest with
      | [] => [[c]]
      | g :: gs => (c :: g) :: gs

/-- Go `strings.Split s sep` for a non-empty separator (the executor only
splits on `"/"` and `"&&"`). -/
def goSplit (s sep : String) : List String :=
  (goSplitList sep.data s.data.length s.data).map String.mk

/-- Go `strings.ReplaceAll s old new`: for a non-empty `old` this is
`strings.Join(strings.Split(s, old), new)`; for an empty `old`, `new` is
inserted before every character and at the end. -/
def goReplaceAll (s old new : String) : String :=
  if old.isEmpty then
    ⟨(s.data.flatMap fun c => new.data ++ [c]) ++ new.data⟩
  else
    String.intercalate new (goSplit s old)

/-! ## Repository mapper (`internal/mapping/mapper.go`) -/

/-- Models `Mapper.GetAppName`: splits the repository full name on `"/"` and returns
`parts[1]` when there are at least two parts, the input unchanged otherwise. -/
def getAppName (repoFullName : String) : String :=
  match goSplit repoFullName "/" with
  | _ :: second :: _ => second
  | _ => repoFullName

/-! ## Command pipeline (`prepareCommands`, `parseCommands`) -/

/-- Models `parseCommands`: split a command string on `"&&"`, trim whitespace from
each piece, drop the pieces that are empty after trimming. -/
def parseCommands (commandStr : String) : List String :=
  ((goSplit commandStr "&&").map goTrim).filter (fun c => c != "")

/-- Models `Executor.prepareCommands`: app-specific command string if configured,
else the default template with every occurrence of the literal `"appname"`
replaced by the app name (`strings.ReplaceAll`), else a configuration error
naming the app.  The chosen string is split by `parseCommands` and stored in
the request's `commands`. -/
def prepareCommands (cfg : Config) (req : Request) : Except String Request :=
  let appName := getAppName req.repository
  match cfg.commands appName with
  | some commands => .ok { req with commands := parseCommands commands }
  | none =>
    if cfg.defaultCommands != "" then
      .ok { req with commands :=
        parseCommands (goReplaceAll cfg.defaultCommands "appname" appName) }
    else
      .error ("no commands configured for app " ++ appName)

/-! ## Lock table

The Go executor stores locks in `map[string]*Lock` guarded by one mutex, so
every `acquireLock`/`releaseLock` call is atomic and any concurrent history
is a sequence of these operations.  The table is modelled as an association
list so that "at most one lock per application name" is a provable invariant
rather than a structural triviality of the map type. -/

/-- The lock table: association list from application name to `Lock`. -/
def LockTable := List (String × Lock)

instance : DecidableEq LockTable := by
  unfold LockTable
  infer_instance

/-- Models `Executor.isLocked`: whether an entry for `appName` exists. -/
def isLocked (locks : LockTable) (appName : String) : Bool :=
  locks.any (fun p => p.1 == appName)

/-- Models `Executor.acquireLock`: atomic check-and-set.  Returns `false` (table
unchanged) when an entry for `appName` exists, otherwise `true` and a table
extended with `{appName, acquisition time, owning request id}`. -/
def acquireLock (locks : LockTable) (appName requestID : String) (now : Nat) :
    Bool × LockTable :=
  if isLocked locks appName then
    (false, locks)
  else
    (true, (appName, ⟨appName, now, requestID⟩) :: locks)

/-- Models `Executor.releaseLock`: unconditionally removes the entry for `appName`
(Go `delete(e.locks, appName)`). -/
def releaseLock (locks : LockTable) (appName : String) : LockTable :=
  locks.filter (fun p => p.1 != appName)

/-- One atomic operation on the mutex-guarded lock table. -/
inductive LockOp where
  | acq (appName requestID : String) (now : Nat)
  | rel (appName : String)

/-- Apply one lock-table operation. -/
def lockStep (locks : LockTable) (op : LockOp) : LockTable :=
  match op with
  | .acq appName requestID now => (acquireLock locks appName requestID now).2
  | .rel appName => releaseLock locks appName

/-- Run a sequence of lock-table operations (an arbitrary interleaving of the
workers' mutex-serialized calls) from a starting table. -/
def runLockOps (locks : LockTable) (ops : List LockOp) : LockTable :=
  ops.foldl lockStep locks

/-- The one-lock-per-name invariant: the table's keys are pairwise distinct. -/
def oneLockPerName (locks : LockTable) : Prop :=
  (locks.map Prod.fst).Nodup

/-! ## Subprocess model

`runCommands` runs each command as `exec.CommandContext(ctx, "sh", "-c", command)`
with `cmd.Dir = req.LocalPath`, `cmd.Env = os.Environ()`, and captures
`cmd.CombinedOutput()`.  The behaviour of the operating system on a given
command string is an oracle. -/

/-- What the operating system would do for one command string: `startFails`
models `CombinedOutput` failing before the process starts (for example the
working directory `req.LocalPath` does not exist), `output` is the combined
stdout/stderr the process writes, `exitCode` its exit status if it runs to
completion, `duration` how long it runs, `errMsg` the rendering of the start
error. -/
structure CmdBehavior where
  startFails : Bool
  output : String
  exitCode : Int
  duration : Nat
  errMsg : String := ""

/-- The subprocess oracle: behaviour of each command string. -/
def Env := String → CmdBehavior

/-- Outcome of one `cmd.CombinedOutput()` call: captured output, whether the
returned error was non-nil, its rendering, `cmd.ProcessState.ExitCode()`, and
the clock when the call returned. -/
structure ExecOutcome where
  out : String
  err : Bool
  errMsg : String
  exitCode : Int
  endTime : Nat
deriving DecidableEq, Repr

/-- One `exec.CommandContext` + `CombinedOutput` call at clock `t` under
absolute deadline `d`:
* if the process cannot start, `CombinedOutput` returns a non-nil error and no
  output; `cmd.ProcessState` is nil and Go's `(*os.ProcessState).ExitCode`
  returns `-1` for a nil receiver (it never dereferences it);
* if the process is still running when the deadline elapses
  (`d < t + duration`), `CommandContext` kills it: non-nil error
  `signal: killed`, and `ExitCode` returns `-1` for a signal-terminated
  process;
* otherwise the process runs to completion; the error is non-nil exactly when
  the exit status is non-zero. -/
def execCmd (env : Env) (t d : Nat) (command : String) : ExecOutcome :=
  let b := env command
  if b.startFails then
    { out := "", err := true, errMsg := b.errMsg, exitCode := -1, endTime := t }
  else if d < t + b.duration then
    { out := b.output, err := true, errMsg := "signal: killed", exitCode := -1,
      endTime := d }
  else
    { out := b.output, err := b.exitCode != 0,
      errMsg := "exit status " ++ toString b.exitCode,
      exitCode := b.exitCode, endTime := t + b.duration }

/-! ## Execution engine (`runCommands`, rollback, `executeDeployment`) -/

/-- Models `Executor.shouldRollback`: a rollback command is configured for the app. -/
def shouldRollback (cfg : Config) (repository : String) : Bool :=
  (cfg.rollbackCommands (getAppName repository)).isSome

/-- Models `Executor.performRollback`: looks up the rollback command (returning the
result unchanged when none is configured), runs it under a fresh
`context.WithTimeout` window of the configured timeout starting at the current
clock `t`; on success overwrites the status to `ROLLBACK` and appends the
rollback output, on failure appends the rollback error to the existing error
message.  Also returns the list of subprocesses invoked. -/
def performRollback (cfg : Config) (env : Env) (req : Request)
    (result : Result) (t : Nat) : Result × List String :=
  match cfg.rollbackCommands (getAppName req.repository) with
  | none => (result, [])
  | some rollbackCmd =>
    let o := execCmd env t (t + cfg.timeout) rollbackCmd
    if o.err then
      ({ result with
         error := result.error ++ "\nRollback failed: " ++ o.errMsg
           ++ "\nRollback output: " ++ o.out }, [rollbackCmd])
    else
      ({ result with
         status := .rollback
         output := result.output ++ "\nRollback executed successfully:\n"
           ++ o.out }, [rollbackCmd])

/-- The `output.WriteString` block `runCommands` appends for the `i`-th
(1-based) command: `"Command i: cmd\n" ++ cmdOutput ++ "\n"`. -/
def cmdBlock (i : Nat) (command output : String) : String :=
  "Command " ++ toString i ++ ": " ++ command ++ "\n" ++ output ++ "\n"

/-- The loop of `Executor.runCommands` over the remaining commands `cmds`,
starting at 0-based index `i`, clock `t`, with output accumulated so far
`acc`.  The non-blocking `select` on `ctx.Done()` before each command is
`d ≤ t`; it returns `TIMEOUT` without touching `result.Output`.  On a
command error the status becomes `FAILED`, the error names the command, the
exit code is taken from the subprocess, the accumulated output is stored, and
rollback is attempted when configured.  Returns the result, the list of
subprocesses invoked, and the final clock. -/
def runCommandsAux (cfg : Config) (env : Env) (d : Nat) (req : Request)
    (result : Result) (cmds : List String) (i : Nat) (t : Nat) (acc : String) :
    Result × List String × Nat :=
  match cmds with
  | [] => ({ result with status := .success, output := acc }, [], t)
  | command :: rest =>
    if d ≤ t then
      ({ result with status := .timeout, error := "Deployment timed out" },
        [], t)
    else
      let o := execCmd env t d command
      let acc2 := acc ++ cmdBlock (i + 1) command o.out
      if o.err then
        let r1 : Result := { result with
          status := .failed
          error := "Command failed: " ++ command ++ " - " ++ o.errMsg
          exitCode := o.exitCode
          output := acc2 }
        if shouldRollback cfg req.repository then
          let rb := performRollback cfg env req r1 o.endTime
          (rb.1, command :: rb.2, o.endTime)
        else
          (r1, [command], o.endTime)
      else
        let rec' := runCommandsAux cfg env d req result rest (i + 1) o.endTime acc2
        (rec'.1, command :: rec'.2.1, rec'.2.2)

/-- Models `Executor.runCommands`: iterate `req.Commands` from the start of the
timeout window. -/
def runCommands (cfg : Config) (env : Env) (d : Nat) (req : Request)
    (result : Result) (t : Nat) : Result × List String × Nat :=
  runCommandsAux cfg env d req result req.commands 0 t ""

/-- Models `Executor.executeDeployment` at clock `t`: acquire the per-app lock
(returning a `FAILED` result immediately when that fails, with the table
unchanged — the `defer releaseLock` is registered only after a successful
acquisition); build the `STARTED` result; set the deadline `t + timeout`;
short-circuit to `SUCCESS` with placeholder output in dry-run mode, otherwise
run the commands; record end time and duration; release the lock.  Returns
the result, the subprocesses invoked, and the final lock table. -/
def executeDeployment (cfg : Config) (env : Env) (locks : LockTable)
    (t : Nat) (req : Request) : Result × List String × LockTable :=
  let appName := getAppName req.repository
  let a := acquireLock locks appName req.id t
  if a.1 then
    let result0 : Result := { request := req, status := .started, startTime := t }
    let d := t + cfg.timeout
    let step : Result × List String × Nat :=
      if cfg.dryRun then
        ({ result0 with
           status := .success
           output := "DRY RUN: Commands would be executed" }, [], t)
      else
        runCommands cfg env d req result0 t
    ({ step.1 with endTime := step.2.2, duration := step.2.2 - t },
      step.2.1, releaseLock a.2 appName)
  else
    ({ request := req, status := .failed, startTime := t, endTime := t,
       error := "Failed to acquire deployment lock" }, [], a.2)

/-! ## Admission (`Deploy`) -/

/-- The executor's shared admission state: the lock table and the bounded
queue channel (`make(chan *Request, 100)`), modelled as the list of requests
currently buffered. -/
structure DeployState where
  locks : LockTable
  queue : List Request
deriving DecidableEq

/-- The capacity of the deployment queue channel. -/
def queueCapacity : Nat := 100

/-- Models `Executor.Deploy` (`genId` is the value `generateID()` would produce):
resolve the app name; reject when the app is locked; assign a generated ID
only when the request's ID is empty; prepare the commands, rejecting on a
configuration error; then a non-blocking channel send — enqueue when a buffer
slot is free, otherwise fail with the queue-full error.  Never blocks: every
branch returns immediately. -/
def Deploy (cfg : Config) (genId : String) (st : DeployState) (req : Request) :
    Except String DeployState :=
  let appName := getAppName req.repository
  if isLocked st.locks appName then
    .error ("deployment already in progress for app " ++ appName)
  else
    let req1 := if req.id == "" then { req with id := genId } else req
    match prepareCommands cfg req1 with
    | .error e => .error ("failed to prepare commands: " ++ e)
    | .ok req2 =>
      if st.queue.length < queueCapacity then
        .ok { st with queue := st.queue ++ [req2] }
      else
        .error "deployment queue is full"

/-! ## Derived descriptions of runs

Abbreviations used to state theorems about `runCommands`: a list of commands
runs cleanly when each starts before the deadline, finishes within it, and
exits zero; `afterTime` is the clock after running them; `cleanOutput` the
output `runCommands` accumulates for them. -/

/-- Every command in the list starts before the deadline `d`, does not fail to
start, finishes within the deadline, and exits zero. -/
def runsClean (env : Env) (d : Nat) : Nat → List String → Bool
  | _, [] => true
  | t, c :: rest =>
    decide (t < d) && !(env c).startFails && decide (t + (env c).duration ≤ d) &&
      decide ((env c).exitCode = 0) && runsClean env d (t + (env c).duration) rest

/-- The clock after running the commands back to back from clock `t`. -/
def afterTime (env : Env) : Nat → List String → Nat
  | t, [] => t
  | t, c :: rest => afterTime env (t + (env c).duration) rest

/-- The output `runCommands` accumulates for cleanly-running commands starting
at 0-based index `i`. -/
def cleanOutput (env : Env) : Nat → List String → String
  | _, [] => ""
  | i, c :: rest => cmdBlock (i + 1) c (env c).output ++ cleanOutput env (i + 1) rest

/-! ## Concrete fixtures for witnesses and counterexamples -/

/-- A subprocess oracle for tests: `"a"` and `"c"` succeed quickly, `"b"`
exits 7, `"slow"` runs for 20 ticks, `"nostart"` cannot start, `"rb"` (a
rollback command) succeeds, `"rbbad"` exits 3. -/
def envW : Env := fun c =>
  if c == "a" then { startFails := false, output := "outA", exitCode := 0, duration := 1 }
  else if c == "b" then { startFails := false, output := "outB", exitCode := 7, duration := 1 }
  else if c == "c" then { startFails := false, output := "outC", exitCode := 0, duration := 1 }
  else if c == "slow" then { startFails := false, output := "partial", exitCode := 0, duration := 20 }
  else if c == "nostart" then
    { startFails := true, output := "", exitCode := 0, duration := 0,
      errMsg := "chdir /missing: no such file or directory" }
  else if c == "rb" then { startFails := false, output := "rolled back", exitCode := 0, duration := 1 }
  else if c == "rbbad" then { startFails := false, output := "rb out", exitCode := 3, duration := 1 }
  else { startFails := false, output := "", exitCode := 0, duration := 1 }

/-- A configuration without rollback commands: app `"app"` runs `"a && b && c"`. -/
def cfgW : Config :=
  { timeout := 10
    dryRun := false
    commands := fun a => if a == "app" then some "a && b && c" else none
    rollbackCommands := fun _ => none
    defaultCommands := "git pull && build appname"
    concurrencyLimit := 2 }

/-- Variant of `cfgW` with rollback command `"rb"` configured for app `"app"`. -/
def cfgRb : Config :=
  { cfgW with rollbackCommands := fun a => if a == "app" then some "rb" else none }

/-- Variant of `cfgW` with failing rollback command `"rbbad"` configured for app `"app"`. -/
def cfgRbBad : Config :=
  { cfgW with rollbackCommands := fun a => if a == "app" then some "rbbad" else none }

/-- Variant of `cfgW` in dry-run mode. -/
def cfgDry : Config := { cfgW with dryRun := true }

/-- A request for `"owner/app"` with prepared commands `["a", "b", "c"]`. -/
def reqW : Request :=
  { id := "req-1", repository := "owner/app", localPath := "/srv/app",
    commands := ["a", "b", "c"] }

/-- The `STARTED` result `executeDeployment` builds for `reqW` at clock 0. -/
def r0W : Result := { request := reqW, status := .started, startTime := 0 }

/-- A concrete `FAILED` result for `reqW`, as left by a failing command. -/
def rFailW : Result :=
  { request := reqW, status := .failed, startTime := 0, output := "O",
    error := "E", exitCode := 7 }

/-- A request for `"owner/site"` with no configured per-app commands, so the
default template applies. -/
def reqSite : Request := { id := "r", repository := "owner/site" }

/-- Variant of `reqW` with the single 20-tick command `"slow"`, which overruns `cfgW`'s
10-tick timeout. -/
def reqSlow : Request := { reqW with commands := ["slow"] }

/-- The `STARTED` result `executeDeployment` builds for `reqSlow` at clock 0. -/
def r0Slow : Result := { request := reqSlow, status := .started, startTime := 0 }

/-! ## Lock-table lemmas -/

theorem isLocked_eq_true_iff (locks : LockTable) (appName : String) :
    isLocked locks appName = true ↔ appName ∈ locks.map Prod.fst := by
  simp [isLocked, List.any_eq_true, List.mem_map]

theorem isLocked_eq_false_iff (locks : LockTable) (appName : String) :
    isLocked locks appName = false ↔ appName ∉ locks.map Prod.fst := by
  rw [← isLocked_eq_true_iff]
  simp

theorem oneLockPerName_lockStep {locks : LockTable} (h : oneLockPerName locks)
    (op : LockOp) : oneLockPerName (lockStep locks op) := by
  cases op with
  | acq appName requestID now =>
    unfold lockStep acquireLock
    by_cases hl : isLocked locks appName
    · simpa [hl] using h
    · rw [Bool.not_eq_true] at hl
      simp only [hl, Bool.false_eq_true, if_false]
      unfold oneLockPerName at h ⊢
      simp only [List.map_cons, List.nodup_cons]
      exact ⟨(isLocked_eq_false_iff locks appName).1 hl, h⟩
  | rel appName =>
    unfold oneLockPerName at h ⊢
    unfold lockStep releaseLock
    exact (h.sublist (List.Sublist.map Prod.fst (List.filter_sublist locks)))

theorem oneLockPerName_runLockOps {locks : LockTable} (h : oneLockPerName locks)
    (ops : List LockOp) : oneLockPerName (runLockOps locks ops) := by
  induction ops generalizing locks with
  | nil => exact h
  | cons op rest ih => exact ih (oneLockPerName_lockStep h op)

theorem oneLockPerName_nil : oneLockPerName ([] : LockTable) := List.nodup_nil

/-- C1: for every application name at most one `Lock` exists: `acquireLock` is
a check-and-set returning `false` on an existing entry and recording
`{appName, acquisition time, owning request id}` otherwise, `releaseLock`
unconditionally removes the entry, every interleaving of these (atomic,
mutex-serialized) calls preserves the one-lock-per-name invariant from the
empty table, and a deployment that cannot acquire the lock returns a `FAILED`
result immediately — it runs no commands and is never queued behind the
holder. -/
theorem lock_one_per_app :
    (∀ ops : List LockOp, oneLockPerName (runLockOps [] ops))
  ∧ (∀ locks appName requestID now, isLocked locks appName = true →
      acquireLock locks appName requestID now = (false, locks))
  ∧ (∀ locks appName requestID now, isLocked locks appName = false →
      acquireLock locks appName requestID now =
        (true, (appName, ⟨appName, now, requestID⟩) :: locks))
  ∧ (∀ locks appName, releaseLock locks appName =
      locks.filter (fun p => p.1 != appName))
  ∧ (∀ cfg env locks t req, isLocked locks (getAppName req.repository) = true →
      (executeDeployment cfg env locks t req).1.status = .failed
    ∧ (executeDeployment cfg env locks t req).1.error =
        "Failed to acquire deployment lock"
    ∧ (executeDeployment cfg env locks t req).2.1 = []
    ∧ (executeDeployment cfg env locks t req).2.2 = locks) := by
  refine ⟨fun ops => oneLockPerName_runLockOps oneLockPerName_nil ops,
    fun locks appName requestID now h => by simp [acquireLock, h],
    fun locks appName requestID now h => by simp [acquireLock, h],
    fun locks appName => rfl,
    fun cfg env locks t req h => ?_⟩
  refine ⟨?_, ?_, ?_, ?_⟩ <;> simp [executeDeployment, acquireLock, h]

/-- Witness for C1 at concrete inputs: two acquisitions for the same app and
a release preserve the invariant, and a second acquisition is refused. -/
theorem lock_one_per_app_witness :
    oneLockPerName (runLockOps []
      [LockOp.acq "app" "r1" 0, LockOp.acq "app" "r2" 1, LockOp.rel "app"])
  ∧ acquireLock [("app", ⟨"app", 0, "r1"⟩)] "app" "r2" 1 =
      (false, [("app", ⟨"app", 0, "r1"⟩)])
  ∧ (executeDeployment cfgW envW [("app", ⟨"app", 0, "r1"⟩)] 1 reqW).1.status =
      .failed :=
  ⟨lock_one_per_app.1 _,
   lock_one_per_app.2.1 _ _ _ _ (by decide),
   (lock_one_per_app.2.2.2.2 cfgW envW _ 1 reqW (by decide)).1⟩

/-! ## Terminal-status lemmas -/

theorem performRollback_status (cfg : Config) (env : Env) (req : Request)
    (result : Result) (t : Nat) :
    (performRollback cfg env req result t).1.status = result.status ∨
    (performRollback cfg env req result t).1.status = .rollback := by
  unfold performRollback
  cases cfg.rollbackCommands (getAppName req.repository) with
  | none => exact .inl rfl
  | some rollbackCmd =>
    by_cases h : (execCmd env t (t + cfg.timeout) rollbackCmd).err <;> simp [h]

theorem performRollback_exitCode (cfg : Config) (env : Env) (req : Request)
    (result : Result) (t : Nat) :
    (performRollback cfg env req result t).1.exitCode = result.exitCode := by
  unfold performRollback
  cases cfg.rollbackCommands (getAppName req.repository) with
  | none => rfl
  | some rollbackCmd =>
    by_cases h : (execCmd env t (t + cfg.timeout) rollbackCmd).err <;> simp [h]

theorem runCommandsAux_status (cfg : Config) (env : Env) (d : Nat)
    (req : Request) (result : Result) (cmds : List String) (i t : Nat)
    (acc : String) :
    (runCommandsAux cfg env d req result cmds i t acc).1.status = .success ∨
    (runCommandsAux cfg env d req result cmds i t acc).1.status = .failed ∨
    (runCommandsAux cfg env d req result cmds i t acc).1.status = .timeout ∨
    (runCommandsAux cfg env d req result cmds i t acc).1.status = .rollback := by
  induction cmds generalizing i t acc with
  | nil => simp [runCommandsAux]
  | cons command rest ih =>
    rw [runCommandsAux]
    by_cases hle : d ≤ t
    · simp [hle]
    · simp only [hle, if_false]
      by_cases herr : (execCmd env t d command).err
      · simp only [herr, if_true]
        by_cases hrb : shouldRollback cfg req.repository
        · simp only [hrb, if_true]
          rcases performRollback_status cfg env req
            { result with
              status := .failed
              error := "Command failed: " ++ command ++ " - " ++ (execCmd env t d command).errMsg
              exitCode := (execCmd env t d command).exitCode
              output := acc ++ cmdBlock (i + 1) command (execCmd env t d command).out }
            (execCmd env t d command).endTime with h | h
          · right; left; exact h
          · right; right; right; exact h
        · simp [hrb]
      · simp only [herr, Bool.false_eq_true, if_false]
        exact ih (i + 1) (execCmd env t d command).endTime
          (acc ++ cmdBlock (i + 1) command (execCmd env t d command).out)

/-- C9: every result of `executeDeployment` carries a terminal status in
`{SUCCESS, FAILED, TIMEOUT, ROLLBACK}`; neither `STARTED` nor `CANCELLED` is
ever the status of a returned result. -/
theorem executeDeployment_terminal (cfg : Config) (env : Env)
    (locks : LockTable) (t : Nat) (req : Request) :
    (executeDeployment cfg env locks t req).1.status = .success ∨
    (executeDeployment cfg env locks t req).1.status = .failed ∨
    (executeDeployment cfg env locks t req).1.status = .timeout ∨
    (executeDeployment cfg env locks t req).1.status = .rollback := by
  unfold executeDeployment
  by_cases ha : (acquireLock locks (getAppName req.repository) req.id t).1
  · simp only [ha, if_true]
    by_cases hdry : cfg.dryRun
    · simp [hdry]
    · simp only [hdry, Bool.false_eq_true, if_false]
      exact runCommandsAux_status cfg env (t + cfg.timeout) req _ req.commands 0 t ""
  · simp [ha]

/-! ## Dry run (C8) -/

/-- C8: with the global dry-run flag set, no subprocess is ever invoked (the
list of invoked subprocesses is empty on every path), and a request whose
per-app lock is free yields a result with status `SUCCESS` and the
placeholder output, the prepared commands being skipped entirely. -/
theorem dry_run_skips_execution (cfg : Config) (env : Env) (locks : LockTable)
    (t : Nat) (req : Request) (hdry : cfg.dryRun = true) :
    (executeDeployment cfg env locks t req).2.1 = []
  ∧ (isLocked locks (getAppName req.repository) = false →
      (executeDeployment cfg env locks t req).1.status = .success
    ∧ (executeDeployment cfg env locks t req).1.output =
        "DRY RUN: Commands would be executed") := by
  unfold executeDeployment
  by_cases hl : isLocked locks (getAppName req.repository)
  · constructor
    · simp [acquireLock, hl]
    · intro h
      rw [hl] at h
      cases h
  · rw [Bool.not_eq_true] at hl
    constructor
    · simp [acquireLock, hl, hdry]
    · intro _
      constructor <;> simp [acquireLock, hl, hdry]

/-- Witness for C8: a concrete dry-run deployment invokes no subprocess and
returns `SUCCESS` with the placeholder output. -/
theorem dry_run_skips_execution_witness :
    (executeDeployment cfgDry envW [] 0 reqW).2.1 = []
  ∧ (executeDeployment cfgDry envW [] 0 reqW).1.status = .success
  ∧ (executeDeployment cfgDry envW [] 0 reqW).1.output =
      "DRY RUN: Commands would be executed" := by
  have h := dry_run_skips_execution cfgDry envW [] 0 reqW (by decide)
  exact ⟨h.1, h.2 (by decide)⟩

/-! ## Rollback (C4) -/

/-- C4: on a `FAILED` result, when no rollback command is configured for the
app the result is returned unchanged and no subprocess runs; when one is
configured it runs once under a fresh timeout window equal to the configured
timeout; on exit zero the status is overwritten to `ROLLBACK` and the
rollback output appended to the output, on failure the rollback error is
appended to the existing error message and the status stays `FAILED` —
rollback failure never escalates. -/
theorem rollback_policy (cfg : Config) (env : Env) (req : Request)
    (result : Result) (t : Nat) (hfail : result.status = .failed) :
    (cfg.rollbackCommands (getAppName req.repository) = none →
       performRollback cfg env req result t = (result, []))
  ∧ (∀ rollbackCmd,
       cfg.rollbackCommands (getAppName req.repository) = some rollbackCmd →
      ((execCmd env t (t + cfg.timeout) rollbackCmd).err = false →
         performRollback cfg env req result t =
           ({ result with status := .rollback, output := result.output ++ "\nRollback executed successfully:\n" ++ (execCmd env t (t + cfg.timeout) rollbackCmd).out }, [rollbackCmd]))
    ∧ ((execCmd env t (t + cfg.timeout) rollbackCmd).err = true →
         performRollback cfg env req result t =
           ({ result with error := result.error ++ "\nRollback failed: " ++ (execCmd env t (t + cfg.timeout) rollbackCmd).errMsg ++ "\nRollback output: " ++ (execCmd env t (t + cfg.timeout) rollbackCmd).out }, [rollbackCmd])
       ∧ (performRollback cfg env req result t).1.status = .failed)) := by
  refine ⟨fun h => by simp [performRollback, h], fun rollbackCmd h => ⟨fun hok => ?_, fun herr => ?_⟩⟩
  · simp [performRollback, h, hok]
  · constructor
    · simp [performRollback, h, herr]
    · rw [← hfail]
      simp [performRollback, h, herr]

/-- Witness for C4: for a concrete `FAILED` result, a configured succeeding
rollback gives `ROLLBACK` with appended output, a failing one keeps `FAILED`
and annotates the error, and an unconfigured one returns the result
unchanged. -/
theorem rollback_policy_witness :
    performRollback cfgW envW reqW rFailW 0 = (rFailW, [])
  ∧ performRollback cfgRb envW reqW rFailW 0 =
      ({ rFailW with status := .rollback, output := "O\nRollback executed successfully:\nrolled back" }, ["rb"])
  ∧ performRollback cfgRbBad envW reqW rFailW 0 =
      ({ rFailW with error := "E\nRollback failed: exit status 3\nRollback output: rb out" }, ["rbbad"])
  ∧ (performRollback cfgRbBad envW reqW rFailW 0).1.status = .failed := by
  have h1 := (rollback_policy cfgW envW reqW rFailW 0 (by decide)).1 (by decide)
  have h2 := ((rollback_policy cfgRb envW reqW rFailW 0 (by decide)).2 "rb" (by decide)).1 (by decide)
  have h3 := ((rollback_policy cfgRbBad envW reqW rFailW 0 (by decide)).2 "rbbad" (by decide)).2 (by decide)
  refine ⟨h1, ?_, ?_, h3.2⟩
  · rw [h2]; decide
  · rw [h3.1]; decide

/-! ## Command preparation (C6) -/

/-- C6: command preparation uses the app-specific command string when one is
configured, else the default template with every occurrence of the literal
`"appname"` replaced by the app name, else fails with a configuration error
naming the app; the chosen string is split on `"&&"` with whitespace-trimmed
segments and empty segments dropped; and for the default template
`"git pull && build appname"` and app name `"site"` the prepared list is
exactly `["git pull", "build site"]`. -/
theorem prepare_commands_resolution (cfg : Config) (req : Request) :
    (∀ s, cfg.commands (getAppName req.repository) = some s →
       prepareCommands cfg req = .ok { req with commands := parseCommands s })
  ∧ (cfg.commands (getAppName req.repository) = none → cfg.defaultCommands ≠ "" →
       prepareCommands cfg req = .ok { req with commands := parseCommands (goReplaceAll cfg.defaultCommands "appname" (getAppName req.repository)) })
  ∧ (cfg.commands (getAppName req.repository) = none → cfg.defaultCommands = "" →
       prepareCommands cfg req = .error ("no commands configured for app " ++ getAppName req.repository))
  ∧ parseCommands (goReplaceAll "git pull && build appname" "appname" "site") = ["git pull", "build site"] := by
  refine ⟨fun s h => by simp [prepareCommands, h], fun h hd => ?_, fun h hd => ?_, by decide⟩
  · have hb : (cfg.defaultCommands != "") = true := by
      simpa using hd
    simp [prepareCommands, h, hb]
  · simp [prepareCommands, h, hd]

/-- Witness for C6: with `default_commands = "git pull && build appname"` and
repository `"owner/site"` (app name `"site"`, no per-app commands), the
prepared command list is exactly `["git pull", "build site"]`. -/
theorem prepare_commands_resolution_witness :
    prepareCommands cfgW reqSite =
      .ok { reqSite with commands := ["git pull", "build site"] } := by
  have h := (prepare_commands_resolution cfgW reqSite).2.1 (by decide) (by decide)
  rw [h]
  decide

/-! ## App-name derivation (C7) -/

/-- Counterexample to C7: for the identifier `"a/b/c"` the segment after the
last separator is `"c"`, but `GetAppName` returns the segment after the
first separator, `"b"`. -/
theorem getAppName_not_last_segment :
    getAppName "a/b/c" = "b" ∧ getAppName "a/b/c" ≠ "c" := by decide

/-- C7 as amended: `GetAppName` returns the second `"/"`-separated segment
(the one after the first separator) when the identifier contains a
separator, and the identifier unchanged otherwise; this is the segment after
the last separator exactly for `owner/repo`-style identifiers with a single
separator. -/
theorem getAppName_second_segment :
    (∀ s, getAppName s = ((goSplit s "/").tail).headD s)
  ∧ (∀ s a b, goSplit s "/" = [a, b] → getAppName s = b)
  ∧ (∀ s a, goSplit s "/" = [a] → getAppName s = s)
  ∧ getAppName "octocat/Hello-World" = "Hello-World"
  ∧ getAppName "noslash" = "noslash"
  ∧ getAppName "a/b/c" = "b" := by
  refine ⟨fun s => ?_, fun s a b h => by simp [getAppName, h],
    fun s a h => by simp [getAppName, h], by decide, by decide, by decide⟩
  unfold getAppName
  cases h : goSplit s "/" with
  | nil => rfl
  | cons x xs =>
    cases xs with
    | nil => rfl
    | cons y ys => rfl

/-- Witness for C7 as amended, at a concrete `owner/repo` identifier. -/
theorem getAppName_second_segment_witness : getAppName "owner/repo" = "repo" :=
  getAppName_second_segment.2.1 "owner/repo" "owner" "repo" (by decide)

/-! ## Admission (C5) -/

theorem prepareCommands_ok_id (cfg : Config) (r r' : Request)
    (h : prepareCommands cfg r = .ok r') : r'.id = r.id := by
  cases hc : cfg.commands (getAppName r.repository) with
  | some s =>
    simp only [prepareCommands, hc] at h
    cases h
    rfl
  | none =>
    simp only [prepareCommands, hc] at h
    by_cases hd : (cfg.defaultCommands != "") = true
    · rw [if_pos hd] at h
      cases h
      rfl
    · rw [if_neg hd] at h
      cases h

/-- C5: `Deploy` resolves the app name and rejects synchronously when the app
is already locked; otherwise it keeps a provided non-empty ID and assigns the
generated one only when the ID is empty; command preparation failure is
rejected as a configuration error; and the enqueue is non-blocking on the
bounded queue of capacity 100 — a full queue yields the "queue full" error
immediately.  Every branch is an immediate return: `Deploy` never blocks on
the queue or on the lock. -/
theorem deploy_admission (cfg : Config) (genId : String) (st : DeployState)
    (req : Request) :
    (isLocked st.locks (getAppName req.repository) = true →
       Deploy cfg genId st req =
         .error ("deployment already in progress for app " ++ getAppName req.repository))
  ∧ (isLocked st.locks (getAppName req.repository) = false →
      (∀ e, prepareCommands cfg (if req.id = "" then { req with id := genId } else req) = .error e →
          Deploy cfg genId st req = .error ("failed to prepare commands: " ++ e))
    ∧ (∀ req2, prepareCommands cfg (if req.id = "" then { req with id := genId } else req) = .ok req2 →
        (st.queue.length < queueCapacity →
            Deploy cfg genId st req = .ok { st with queue := st.queue ++ [req2] })
      ∧ (¬ st.queue.length < queueCapacity →
            Deploy cfg genId st req = .error "deployment queue is full")))
  ∧ ((if req.id = "" then { req with id := genId } else req).id =
       if req.id = "" then genId else req.id)
  ∧ (∀ r r', prepareCommands cfg r = .ok r' → r'.id = r.id)
  ∧ queueCapacity = 100 := by
  refine ⟨fun h => by simp [Deploy, h], fun h => ⟨fun e he => ?_, fun req2 hok => ⟨fun hq => ?_, fun hq => ?_⟩⟩,
    ?_, fun r r' => prepareCommands_ok_id cfg r r', rfl⟩
  · simp [Deploy, h, he]
  · simp [Deploy, h, hok, hq]
  · simp [Deploy, h, hok, hq]
  · by_cases hid : req.id = "" <;> simp [hid]

/-- Witness for C5: with an empty incoming ID and a free queue, the request
is enqueued with the generated ID and the prepared commands; with the app
locked, `Deploy` rejects synchronously. -/
theorem deploy_admission_witness :
    Deploy cfgW "gen" ⟨[], []⟩ { id := "", repository := "owner/site" } =
      .ok ⟨[], [{ id := "gen", repository := "owner/site", commands := ["git pull", "build site"] }]⟩
  ∧ Deploy cfgW "gen" ⟨[("site", ⟨"site", 0, "q"⟩)], []⟩ { id := "", repository := "owner/site" } =
      .error "deployment already in progress for app site" := by
  constructor
  · have h := ((deploy_admission cfgW "gen" ⟨[], []⟩ { id := "", repository := "owner/site" }).2.1 (by decide)).2
      { id := "gen", repository := "owner/site", commands := ["git pull", "build site"] } (by decide)
    rw [h.1 (by decide)]
    decide
  · have h := (deploy_admission cfgW "gen" ⟨[("site", ⟨"site", 0, "q"⟩)], []⟩ { id := "", repository := "owner/site" }).1 (by decide)
    rw [h]
    decide

/-! ## Start-failure safety (C10) -/

/-- C10: when a command's subprocess never starts (for example the request's
local path does not exist), the error branch of `runCommands` still completes
with a well-defined exit code: Go's `(*os.ProcessState).ExitCode` returns
`-1` on a nil `ProcessState`, so the result records exit code `-1` and a
terminal `FAILED` (or, after a configured rollback, `ROLLBACK`) status. -/
theorem start_failure_handled (cfg : Config) (env : Env) (d : Nat)
    (req : Request) (result : Result) (command : String) (rest : List String)
    (i t : Nat) (acc : String) (hlt : t < d)
    (hsf : (env command).startFails = true) :
    (execCmd env t d command).err = true
  ∧ (execCmd env t d command).exitCode = -1
  ∧ (runCommandsAux cfg env d req result (command :: rest) i t acc).1.exitCode = -1
  ∧ ((runCommandsAux cfg env d req result (command :: rest) i t acc).1.status = .failed
   ∨ (runCommandsAux cfg env d req result (command :: rest) i t acc).1.status = .rollback) := by
  have hexec : execCmd env t d command =
      { out := "", err := true, errMsg := (env command).errMsg, exitCode := -1, endTime := t } := by
    simp [execCmd, hsf]
  have hnle : ¬ d ≤ t := Nat.not_le.mpr hlt
  refine ⟨by rw [hexec], by rw [hexec], ?_, ?_⟩
  · rw [runCommandsAux]
    simp only [hnle, if_false, hexec, if_true]
    by_cases hrb : shouldRollback cfg req.repository
    · simp only [hrb, if_true]
      rw [performRollback_exitCode]
    · simp [hrb]
  · rw [runCommandsAux]
    simp only [hnle, if_false, hexec, if_true]
    by_cases hrb : shouldRollback cfg req.repository
    · simp only [hrb, if_true]
      rcases performRollback_status cfg env req _ t with h | h
      · exact .inl h
      · exact .inr h
    · simp [hrb]

/-- Witness for C10: the command `"nostart"` (whose subprocess cannot start)
yields exit code `-1` and a `FAILED` result. -/
theorem start_failure_handled_witness :
    (execCmd envW 0 10 "nostart").exitCode = -1
  ∧ (runCommandsAux cfgW envW 10 reqW r0W ["nostart"] 0 0 "").1.exitCode = -1
  ∧ ((runCommandsAux cfgW envW 10 reqW r0W ["nostart"] 0 0 "").1.status = .failed
   ∨ (runCommandsAux cfgW envW 10 reqW r0W ["nostart"] 0 0 "").1.status = .rollback) := by
  have h := start_failure_handled cfgW envW 10 reqW r0W "nostart" [] 0 0 ""
    (by decide) (by decide)
  exact ⟨h.2.1, h.2.2.1, h.2.2.2⟩

/-! ## The command loop on a failing command (C3, C2) -/

theorem runsClean_cons {env : Env} {d t : Nat} {c : String} {rest : List String}
    (h : runsClean env d t (c :: rest) = true) :
    t < d ∧ (env c).startFails = false ∧ t + (env c).duration ≤ d ∧
    (env c).exitCode = 0 ∧ runsClean env d (t + (env c).duration) rest = true := by
  simp only [runsClean, Bool.and_eq_true, decide_eq_true_eq, Bool.not_eq_true'] at h
  exact ⟨h.1.1.1.1, h.1.1.1.2, h.1.1.2, h.1.2, h.2⟩

theorem execCmd_clean {env : Env} {d t : Nat} {c : String}
    (h2 : (env c).startFails = false) (h3 : t + (env c).duration ≤ d) :
    execCmd env t d c =
      { out := (env c).output, err := (env c).exitCode != 0,
        errMsg := "exit status " ++ toString (env c).exitCode,
        exitCode := (env c).exitCode, endTime := t + (env c).duration } := by
  simp [execCmd, h2, Nat.not_lt.mpr h3]

/-- A cleanly-running prefix of the command list is consumed by
`runCommandsAux` exactly as `afterTime`/`cleanOutput` describe, each prefix
command contributing one subprocess invocation. -/
theorem runCommandsAux_cleanPrefix (cfg : Config) (env : Env) (d : Nat)
    (req : Request) (result : Result) (pre rest : List String) (i t : Nat)
    (acc : String) (h : runsClean env d t pre = true) :
    runCommandsAux cfg env d req result (pre ++ rest) i t acc =
      ((runCommandsAux cfg env d req result rest (i + pre.length) (afterTime env t pre) (acc ++ cleanOutput env i pre)).1,
       pre ++ (runCommandsAux cfg env d req result rest (i + pre.length) (afterTime env t pre) (acc ++ cleanOutput env i pre)).2.1,
       (runCommandsAux cfg env d req result rest (i + pre.length) (afterTime env t pre) (acc ++ cleanOutput env i pre)).2.2) := by
  induction pre generalizing i t acc with
  | nil =>
    simp [afterTime, cleanOutput, String.append_empty]
  | cons c pre' ih =>
    obtain ⟨h1, h2, h3, h4, h5⟩ := runsClean_cons h
    have hexec := execCmd_clean h2 h3
    have hcond : ((env c).exitCode != 0) = false := by simp [h4]
    rw [List.cons_append, runCommandsAux, if_neg (Nat.not_le.mpr h1)]
    simp only [hexec, hcond, Bool.false_eq_true, if_false]
    rw [ih (i + 1) (t + (env c).duration) (acc ++ cmdBlock (i + 1) c (env c).output) h5]
    simp only [List.length_cons, afterTime, cleanOutput, List.cons_append]
    rw [show i + (pre'.length + 1) = i + 1 + pre'.length from by omega]
    rw [String.append_assoc]

/-- One step of `runCommandsAux` on a failing head command: the error branch
builds the `FAILED` result and attempts rollback when configured. -/
theorem runCommandsAux_fail_head (cfg : Config) (env : Env) (d : Nat)
    (req : Request) (result : Result) (command : String) (rest : List String)
    (i t : Nat) (acc : String) (hlt : t < d)
    (herr : (execCmd env t d command).err = true) :
    runCommandsAux cfg env d req result (command :: rest) i t acc =
      (if shouldRollback cfg req.repository then
        ((performRollback cfg env req { result with status := .failed, error := "Command failed: " ++ command ++ " - " ++ (execCmd env t d command).errMsg, exitCode := (execCmd env t d command).exitCode, output := acc ++ cmdBlock (i + 1) command (execCmd env t d command).out } (execCmd env t d command).endTime).1,
         command :: (performRollback cfg env req { result with status := .failed, error := "Command failed: " ++ command ++ " - " ++ (execCmd env t d command).errMsg, exitCode := (execCmd env t d command).exitCode, output := acc ++ cmdBlock (i + 1) command (execCmd env t d command).out } (execCmd env t d command).endTime).2,
         (execCmd env t d command).endTime)
      else
        ({ result with status := .failed, error := "Command failed: " ++ command ++ " - " ++ (execCmd env t d command).errMsg, exitCode := (execCmd env t d command).exitCode, output := acc ++ cmdBlock (i + 1) command (execCmd env t d command).out }, [command], (execCmd env t d command).endTime)) := by
  rw [runCommandsAux, if_neg (Nat.not_le.mpr hlt)]
  simp only [herr, if_true]

/-- C3: when the commands are a cleanly-running prefix `pre` followed by a
failing command, `runCommands` stops at that command — only `pre` and the
failing command (plus a configured rollback command) are ever invoked —
with status `FAILED`, the failing subprocess's exit code, an error naming
the failing command, and output exactly the blocks of commands `1..k` each
prefixed by its 1-based index; the rollback step is then applied to that
result before returning. -/
theorem runCommands_failure (cfg : Config) (env : Env) (d : Nat)
    (req : Request) (result : Result) (t : Nat) (pre : List String)
    (command : String) (post : List String)
    (hcmds : req.commands = pre ++ command :: post)
    (hpre : runsClean env d t pre = true)
    (hlt : afterTime env t pre < d)
    (herr : (execCmd env (afterTime env t pre) d command).err = true) :
    runCommands cfg env d req result t =
      (if shouldRollback cfg req.repository then
        ((performRollback cfg env req { result with status := .failed, error := "Command failed: " ++ command ++ " - " ++ (execCmd env (afterTime env t pre) d command).errMsg, exitCode := (execCmd env (afterTime env t pre) d command).exitCode, output := cleanOutput env 0 pre ++ cmdBlock (pre.length + 1) command (execCmd env (afterTime env t pre) d command).out } (execCmd env (afterTime env t pre) d command).endTime).1,
         pre ++ command :: (performRollback cfg env req { result with status := .failed, error := "Command failed: " ++ command ++ " - " ++ (execCmd env (afterTime env t pre) d command).errMsg, exitCode := (execCmd env (afterTime env t pre) d command).exitCode, output := cleanOutput env 0 pre ++ cmdBlock (pre.length + 1) command (execCmd env (afterTime env t pre) d command).out } (execCmd env (afterTime env t pre) d command).endTime).2,
         (execCmd env (afterTime env t pre) d command).endTime)
      else
        ({ result with status := .failed, error := "Command failed: " ++ command ++ " - " ++ (execCmd env (afterTime env t pre) d command).errMsg, exitCode := (execCmd env (afterTime env t pre) d command).exitCode, output := cleanOutput env 0 pre ++ cmdBlock (pre.length + 1) command (execCmd env (afterTime env t pre) d command).out }, pre ++ [command], (execCmd env (afterTime env t pre) d command).endTime)) := by
  unfold runCommands
  rw [hcmds, runCommandsAux_cleanPrefix cfg env d req result pre (command :: post) 0 t "" hpre]
  rw [runCommandsAux_fail_head cfg env d req result command post (0 + pre.length) (afterTime env t pre) ("" ++ cleanOutput env 0 pre) hlt herr]
  rw [String.empty_append, Nat.zero_add]
  by_cases hrb : shouldRollback cfg req.repository <;> simp [hrb]

/-- Witness for C3: of the commands `["a", "b", "c"]` the second exits 7, so
the run yields `FAILED` with exit code 7, output containing exactly the
first two commands' indexed blocks, and only `"a"` and `"b"` invoked. -/
theorem runCommands_failure_witness :
    (runCommands cfgW envW 10 reqW r0W 0).1.status = .failed
  ∧ (runCommands cfgW envW 10 reqW r0W 0).1.exitCode = 7
  ∧ (runCommands cfgW envW 10 reqW r0W 0).1.error = "Command failed: b - exit status 7"
  ∧ (runCommands cfgW envW 10 reqW r0W 0).1.output = "Command 1: a\noutA\nCommand 2: b\noutB\n"
  ∧ (runCommands cfgW envW 10 reqW r0W 0).2.1 = ["a", "b"] := by
  have h := runCommands_failure cfgW envW 10 reqW r0W 0 ["a"] "b" ["c"] rfl
    (by decide) (by decide) (by decide)
  rw [h]
  decide

/-- Counterexample to C2: with configured timeout 10 the command `"slow"`
runs for 20 ticks, so its execution duration exceeds the timeout and the
subprocess is killed by the deadline — yet the returned status is `FAILED`,
not `TIMEOUT`. -/
theorem midrun_kill_not_timeout :
    cfgW.timeout = 10
  ∧ (envW "slow").duration = 20
  ∧ (runCommands cfgW envW (0 + cfgW.timeout) reqSlow r0Slow 0).1.status = .failed
  ∧ (runCommands cfgW envW (0 + cfgW.timeout) reqSlow r0Slow 0).1.status ≠ .timeout := by
  decide

/-- C2 as amended: if the deadline has already elapsed when the loop reaches
the next command, the result is `TIMEOUT` and neither that command nor any
later one is executed; a command still running when the deadline elapses is
terminated at the deadline (`CommandContext` kills it, end time `d`, exit
code `-1`) and handled by the `FAILED` error branch — not `TIMEOUT` — with
rollback attempted when configured, and no later command is executed. -/
theorem timeout_policy (cfg : Config) (env : Env) (d : Nat) (req : Request)
    (result : Result) (command : String) (rest : List String) (i t : Nat)
    (acc : String) :
    (d ≤ t →
      runCommandsAux cfg env d req result (command :: rest) i t acc =
        ({ result with status := .timeout, error := "Deployment timed out" }, [], t))
  ∧ (t < d → (env command).startFails = false → d < t + (env command).duration →
      execCmd env t d command =
        { out := (env command).output, err := true, errMsg := "signal: killed", exitCode := -1, endTime := d }
    ∧ runCommandsAux cfg env d req result (command :: rest) i t acc =
        (if shouldRollback cfg req.repository then
          ((performRollback cfg env req { result with status := .failed, error := "Command failed: " ++ command ++ " - signal: killed", exitCode := -1, output := acc ++ cmdBlock (i + 1) command (env command).output } d).1,
           command :: (performRollback cfg env req { result with status := .failed, error := "Command failed: " ++ command ++ " - signal: killed", exitCode := -1, output := acc ++ cmdBlock (i + 1) command (env command).output } d).2,
           d)
        else
          ({ result with status := .failed, error := "Command failed: " ++ command ++ " - signal: killed", exitCode := -1, output := acc ++ cmdBlock (i + 1) command (env command).output }, [command], d))) := by
  constructor
  · intro hle
    rw [runCommandsAux, if_pos hle]
  · intro hlt hsf hkill
    have hexec : execCmd env t d command =
        { out := (env command).output, err := true, errMsg := "signal: killed", exitCode := -1, endTime := d } := by
      simp [execCmd, hsf, hkill]
    refine ⟨hexec, ?_⟩
    rw [runCommandsAux_fail_head cfg env d req result command rest i t acc hlt (by rw [hexec])]
    rw [hexec]
    have hs : " - " ++ "signal: killed" = " - signal: killed" := rfl
    simp only [String.append_assoc, hs]

/-- Witness for C2 as amended: at deadline 0 the loop returns `TIMEOUT`
before invoking anything, and the overrunning command `"slow"` is terminated
at the deadline and yields `FAILED`. -/
theorem timeout_policy_witness :
    runCommandsAux cfgW envW 0 reqSlow r0Slow ["slow"] 0 0 "" =
      ({ r0Slow with status := .timeout, error := "Deployment timed out" }, [], 0)
  ∧ (runCommandsAux cfgW envW 10 reqSlow r0Slow ["slow"] 0 0 "").1.status = .failed
  ∧ (runCommandsAux cfgW envW 10 reqSlow r0Slow ["slow"] 0 0 "").2.1 = ["slow"]
  ∧ (runCommandsAux cfgW envW 10 reqSlow r0Slow ["slow"] 0 0 "").2.2 = 10 := by
  have h0 := (timeout_policy cfgW envW 0 reqSlow r0Slow "slow" [] 0 0 "").1 (by decide)
  have h1 := ((timeout_policy cfgW envW 10 reqSlow r0Slow "slow" [] 0 0 "").2 (by decide) (by decide) (by decide)).2
  refine ⟨h0, ?_, ?_, ?_⟩ <;> rw [h1] <;> decide

end CicdThing
